import Mathlib

/-!
Verification of the offer-segment generation and batched-write pipeline
(`src/unnamed/part_002` of the repository): deterministic segment ids,
the batched multi-row REPLACE builder, `createSegments`/`createOffers`,
and the synthetic data generator `randomOffer`/`randomOffers`.

The database execution layer (`Exec`) is modelled by an oracle
`Config : String → List SqlValue → Bool` telling whether a given
statement (text plus flattened parameters) succeeds; the Open Location
Code codec, `boundsToWKTPolygon` and the vendor catalog are external
collaborators and are passed in as fields of `GenEnv`.
-/

namespace Martech

/-- The string-hash npm dependency (djb2 variant): starting from 5381, for each
character from the last to the first, `hash = (hash * 33) ^ charCode`, with
32-bit wrap-around, reinterpreted as an unsigned 32-bit integer at the end. -/
def stringHash (s : String) : Nat :=
  s.data.foldr (fun c h => Nat.xor (h * 33 % 4294967296) c.toNat) 5381

/-- `DEFAULT_CUSTOMER_ID` from the source (line 9). -/
def DEFAULT_CUSTOMER_ID : Int := 0

/-- `MAX_OFFERS_PER_BATCH` from the source (line 17). -/
def MAX_OFFERS_PER_BATCH : Nat := 500

/-- The `SegmentKinds` string union ("olc_8" | "olc_6" | "purchase" | "request"). -/
inductive SegmentKind
  | olc_8
  | olc_6
  | purchase
  | request
deriving DecidableEq

/-- The string value of a `SegmentKind`, as it appears in the source union. -/
def SegmentKind.toStr : SegmentKind → String
  | .olc_8 => "olc_8"
  | .olc_6 => "olc_6"
  | .purchase => "purchase"
  | .request => "request"

/-- The `SegmentKinds` array from the source (line 40). -/
def SegmentKinds : List SegmentKind :=
  [.olc_8, .olc_6, .purchase, .request]

/-- The `SegmentIntervals` string union. -/
inductive SegmentInterval
  | minute
  | hour
  | day
  | week
  | month
deriving DecidableEq

/-- The string value of a `SegmentInterval`. -/
def SegmentInterval.toStr : SegmentInterval → String
  | .minute => "minute"
  | .hour => "hour"
  | .day => "day"
  | .week => "week"
  | .month => "month"

/-- The `SegmentIntervals` array from the source (lines 43-49). -/
def SegmentIntervals : List SegmentInterval :=
  [.minute, .hour, .day, .week, .month]

/-- The `Segment` record type (source lines 52-56). -/
structure Segment where
  interval : SegmentInterval
  kind : SegmentKind
  value : String
deriving DecidableEq

/-- `segmentId` (source lines 58-59): hash of the template string
`interval-kind-value`. -/
def segmentId (s : Segment) : Nat :=
  stringHash (s.interval.toStr ++ "-" ++ s.kind.toStr ++ "-" ++ s.value)

/-- The `Offer` record type (source lines 84-93). -/
structure Offer where
  segments : List Segment
  notificationZone : String
  notificationContent : String
  notificationTarget : String
  maximumBidCents : Int
deriving DecidableEq

/-- A SQL statement parameter: the values appended to the builder are either
strings or numbers. -/
inductive SqlValue
  | str (s : String)
  | int (n : Int)
deriving DecidableEq

/-- Modelled from the spec: the Batched Multi-Row Write Builder `MultiReplace`
from the module `@/data/sqlbuilder`, which is not under `src/` (spec section
4.2). It holds a target relation, a fixed ordered column list and the
accumulated rows. -/
structure MultiReplace where
  table : String
  columns : List String
  rows : List (List SqlValue)
deriving DecidableEq

/-- Modelled from the spec: `append` adds one row to the builder. -/
def MultiReplace.append (m : MultiReplace) (vals : List SqlValue) : MultiReplace :=
  { m with rows := m.rows ++ [vals] }

/-- Modelled from the spec: `clear` discards the accumulated rows without
altering the configured relation and columns. -/
def MultiReplace.clear (m : MultiReplace) : MultiReplace :=
  { m with rows := [] }

/-- Modelled from the spec: the statement text rendered by the builder, a
single multi-row REPLACE covering all accumulated rows. -/
def MultiReplace.sql (m : MultiReplace) : String :=
  "REPLACE INTO " ++ m.table ++ " (" ++ ",".intercalate m.columns ++ ") VALUES " ++
    ",".intercalate (m.rows.map (fun _ =>
      "(" ++ ",".intercalate (m.columns.map (fun _ => "?")) ++ ")"))

/-- Modelled from the spec: the flattened parameter list of the builder. -/
def MultiReplace.params (m : MultiReplace) : List SqlValue :=
  m.rows.flatten

/-- The execution layer: `Exec(config, sql, ...params)` is modelled by an
oracle saying whether that statement succeeds. -/
def Config : Type :=
  String → List SqlValue → Bool

/-- The always-succeeding execution oracle (a healthy database). -/
def allOk : Config :=
  fun _ _ => true

/-- The row appended for one segment by `createSegments` (source lines 72-79):
`(segmentId, interval, kind, value)`. -/
def segmentRowValues (s : Segment) : List SqlValue :=
  [.int (segmentId s), .str s.interval.toStr, .str s.kind.toStr, .str s.value]

/-- The column list of the segments builder (source lines 65-70). -/
def segmentsColumns : List String :=
  ["segment_id", "valid_interval", "filter_kind", "filter_value"]

/-- The builder constructed by `createSegments` (source lines 61-79): a
`MultiReplace` over the segments relation with one row per input segment. -/
def createSegmentsStmt (segments : List Segment) : MultiReplace :=
  segments.foldl (fun m s => m.append (segmentRowValues s))
    (MultiReplace.mk "segments" segmentsColumns [])

/-- `createSegments` (source lines 61-82): build the statement and execute it;
the result is whether the `Exec` call succeeds. -/
def createSegments (config : Config) (segments : List Segment) : Bool :=
  config (createSegmentsStmt segments).sql (createSegmentsStmt segments).params

/-- Decimal digits of a natural number, fuel-indexed to keep the recursion
structural. -/
def natDigitsAux : Nat → Nat → List Char
  | 0, _ => []
  | fuel + 1, n =>
      if n < 10 then [Nat.digitChar n]
      else natDigitsAux fuel (n / 10) ++ [Nat.digitChar (n % 10)]

/-- The decimal digit string of a natural number, most significant first:
how `JSON.stringify` renders a non-negative integer. -/
def natDigits (n : Nat) : List Char :=
  natDigitsAux (n + 1) n

/-- The comma-separated body of a JSON array of naturals. -/
def renderBody : List Nat → List Char
  | [] => []
  | [n] => natDigits n
  | n :: rest => natDigits n ++ ',' :: renderBody rest

/-- `JSON.stringify` of an array of non-negative integers (source line 127):
the bracketed comma-separated decimal renderings. -/
def jsonNatArray (ids : List Nat) : String :=
  String.mk ('[' :: (renderBody ids ++ [']']))

/-- The row appended for one offer by `createOffers` (source lines 124-131). -/
def offerRowValues (customerId : Int) (o : Offer) : List SqlValue :=
  [.int customerId,
   .str o.notificationZone,
   .str (jsonNatArray (o.segments.map segmentId)),
   .str o.notificationContent,
   .str o.notificationTarget,
   .int o.maximumBidCents]

/-- The column list of the offers builder (source lines 100-107). -/
def offersColumns : List String :=
  ["customer_id", "notification_zone", "segment_ids",
   "notification_content", "notification_target", "maximum_bid_cents"]

/-- One committed flush: the rows sent to the offers relation and the rows
sent to the segments relation by the two `Promise.all`ed writes. -/
structure Flush where
  offerRows : List (List SqlValue)
  segmentRows : List (List SqlValue)
deriving DecidableEq

/-- The mutable state of one `createOffers` invocation: the offers builder
`stmt`, the pending `segments` list, the in-batch counter `numOffers`, and the
flushes committed so far. -/
structure OffersState where
  stmt : MultiReplace
  segments : List Segment
  numOffers : Nat
  flushes : List Flush
deriving DecidableEq

/-- `commitBatch` (source lines 112-121): fire the offers write and the
segments write together and await both; only if both succeed are the builder
cleared, the pending segments reset and the counter zeroed. On failure the
error propagates with the accumulated state untouched. -/
def commitBatch (config : Config) (st : OffersState) : Except OffersState OffersState :=
  if config st.stmt.sql st.stmt.params && createSegments config st.segments then
    Except.ok
      { stmt := st.stmt.clear
        segments := []
        numOffers := 0
        flushes := st.flushes ++ [⟨st.stmt.rows, (createSegmentsStmt st.segments).rows⟩] }
  else
    Except.error st

/-- The per-offer step of the `createOffers` loop body (source lines 124-134):
append the offer's row, bump the counter, retain the offer's segments. -/
def appendOffer (customerId : Int) (o : Offer) (st : OffersState) : OffersState :=
  { st with
    stmt := st.stmt.append (offerRowValues customerId o)
    numOffers := st.numOffers + 1
    segments := st.segments ++ o.segments }

/-- The `for (const offer of offers)` loop of `createOffers` (source lines
123-139): append each offer and commit whenever the batch threshold is
reached. -/
def createOffersLoop (config : Config) (customerId : Int) :
    List Offer → OffersState → Except OffersState OffersState
  | [], st => Except.ok st
  | o :: rest, st =>
      let st' := appendOffer customerId o st
      if st'.numOffers ≥ MAX_OFFERS_PER_BATCH then
        match commitBatch config st' with
        | Except.ok st'' => createOffersLoop config customerId rest st''
        | Except.error e => Except.error e
      else
        createOffersLoop config customerId rest st'

/-- The trailing flush of `createOffers` (source lines 141-143). -/
def finishBatch (config : Config) (st : OffersState) : Except OffersState (List Flush) :=
  if st.numOffers > 0 then
    match commitBatch config st with
    | Except.ok st' => Except.ok st'.flushes
    | Except.error e => Except.error e
  else
    Except.ok st.flushes

/-- The empty offers builder constructed at the top of `createOffers`. -/
def initState : OffersState :=
  ⟨MultiReplace.mk "offers" offersColumns [], [], 0, []⟩

/-- `createOffers` run from an arbitrary accumulated state. -/
def createOffersFrom (config : Config) (customerId : Int) (offers : List Offer)
    (st : OffersState) : Except OffersState (List Flush) :=
  match createOffersLoop config customerId offers st with
  | Except.ok st' => finishBatch config st'
  | Except.error e => Except.error e

/-- `createOffers` (source lines 95-144). On success it returns the list of
committed flushes; on a failed flush it returns the state held when the error
propagated. `customerId` defaults to `DEFAULT_CUSTOMER_ID` as in the source. -/
def createOffers (config : Config) (offers : List Offer)
    (customerId : Int := DEFAULT_CUSTOMER_ID) : Except OffersState (List Flush) :=
  createOffersFrom config customerId offers initState

/-- The REPLACE-on-conflict effect of executing a multi-row statement against
a relation keyed by its first column: each row deletes any existing row with
the same key and is then inserted; duplicate keys replace, they never error. -/
def applyReplace (table rows : List (List SqlValue)) : List (List SqlValue) :=
  rows.foldl
    (fun t r => t.filter (fun x => x.getD 0 (.str "") != r.getD 0 (.str "")) ++ [r])
    table

/-- A vendor record from the static vendor catalog `vendors.json`. -/
structure Vendor where
  vendor : String
  tld : String
deriving DecidableEq

/-- The decoded Open Location Code area returned by `OpenLocationCode.decode`. -/
structure Area where
  latitudeLo : ℚ
  latitudeHi : ℚ
  longitudeLo : ℚ
  longitudeHi : ℚ

/-- A `pigeon-maps` bounding box: northeast and southwest corners. -/
structure GeoBounds where
  ne : ℚ × ℚ
  sw : ℚ × ℚ

/-- `CityConfig` (source lines 19-23); `lonlat` is a (longitude, latitude)
point and the coordinates are modelled as rationals. -/
structure CityConfig where
  name : String
  lonlat : ℚ × ℚ
  diameter : ℚ

/-- `DEFAULT_CITY` from the source (lines 11-15). -/
def DEFAULT_CITY : CityConfig :=
  ⟨"New York", (-73993562 / 1000000, 40727063 / 1000000), 15 / 100⟩

/-- The external collaborators of the synthetic generator: the `Math.random`
stream (one value per call, consumed left to right), the static vendor
catalog, the Open Location Code codec and the WKT conversion, all injected
as read-only dependencies. -/
structure GenEnv where
  rand : Nat → ℚ
  vendors : List Vendor
  encode : ℚ → ℚ → Nat → String
  decode : String → Area
  boundsToWKTPolygon : GeoBounds → String

/-- One `Math.random()` call: draw the next stream value, advance the index. -/
def mathRandom (env : GenEnv) (i : Nat) : ℚ × Nat :=
  (env.rand i, i + 1)

/-- `randomChoice` (source lines 146-147): index the array at
`Math.floor(Math.random() * arr.length)`. Out-of-range indexing (impossible
while the random values stay in [0,1)) is totalized with a default. -/
def randomChoice (env : GenEnv) (arr : List α) (dflt : α) (i : Nat) : α × Nat :=
  let r := mathRandom env i
  (arr.getD (⌊r.1 * arr.length⌋).toNat dflt, r.2)

/-- `randomFloatInRange` (source lines 149-150). -/
def randomFloatInRange (env : GenEnv) (lo hi : ℚ) (i : Nat) : ℚ × Nat :=
  let r := mathRandom env i
  (r.1 * (hi - lo) + lo, r.2)

/-- `randomIntegerInRange` (source lines 152-153). -/
def randomIntegerInRange (env : GenEnv) (lo hi : ℚ) (i : Nat) : Int × Nat :=
  let r := randomFloatInRange env lo hi i
  (⌊r.1⌋, r.2)

/-- `randomVendor` (source line 155). -/
def randomVendor (env : GenEnv) (i : Nat) : Vendor × Nat :=
  randomChoice env env.vendors ⟨"", ""⟩ i

/-- `randomSegmentKind` (source line 156). -/
def randomSegmentKind (env : GenEnv) (i : Nat) : SegmentKind × Nat :=
  randomChoice env SegmentKinds SegmentKind.olc_8 i

/-- `randomSegmentInterval` (source line 157). -/
def randomSegmentInterval (env : GenEnv) (i : Nat) : SegmentInterval × Nat :=
  randomChoice env SegmentIntervals SegmentInterval.minute i

/-- `vendorDomain` (source lines 159-160). -/
def vendorDomain (v : Vendor) : String :=
  v.vendor.toLower ++ "." ++ v.tld

/-- `randomPointInCity` (source lines 162-171): a uniform sample from the
city's bounding square, center plus-or-minus diameter/2 in each axis; no
validation of the diameter takes place. -/
def randomPointInCity (env : GenEnv) (city : CityConfig) (i : Nat) : (ℚ × ℚ) × Nat :=
  let lon := city.lonlat.1
  let lat := city.lonlat.2
  let radius := city.diameter / 2
  let px := randomFloatInRange env (lon - radius) (lon + radius) i
  let py := randomFloatInRange env (lat - radius) (lat + radius) px.2
  ((px.1, py.1), py.2)

/-- `olc.substring(0, olcLen)` (source lines 181-184): the first `n`
characters of the encoded code. -/
def substring0 (s : String) (n : Nat) : String :=
  String.mk (s.data.take n)

/-- `randomSegment` (source lines 173-204). -/
def randomSegment (env : GenEnv) (city : CityConfig) (i : Nat) : Segment × Nat :=
  let k := randomSegmentKind env i
  let kind := k.1
  let intr := randomSegmentInterval env k.2
  let interval := intr.1
  let i2 := intr.2
  match kind with
  | SegmentKind.olc_8 | SegmentKind.olc_6 =>
      let p := randomPointInCity env city i2
      let olcLen := if kind = SegmentKind.olc_8 then 8 else 6
      let olc := substring0 (env.encode p.1.2 p.1.1 olcLen) olcLen
      (⟨interval, kind, olc⟩, p.2)
  | SegmentKind.purchase =>
      let v := randomVendor env i2
      (⟨interval, kind, v.1.vendor⟩, v.2)
  | SegmentKind.request =>
      let v := randomVendor env i2
      (⟨interval, kind, vendorDomain v.1⟩, v.2)

/-- The `Array.from` of `randomOffer` (source lines 208-210): a list of `n`
segments drawn in sequence. -/
def randomSegmentList (env : GenEnv) (city : CityConfig) : Nat → Nat → List Segment × Nat
  | 0, i => ([], i)
  | n + 1, i =>
      let s := randomSegment env city i
      let rest := randomSegmentList env city n s.2
      (s.1 :: rest.1, rest.2)

/-- `randomOffer` (source lines 206-234). -/
def randomOffer (env : GenEnv) (city : CityConfig) (i : Nat) : Offer × Nat :=
  let ns := randomIntegerInRange env 1 3 i
  let segs := randomSegmentList env city ns.1.toNat ns.2
  let v := randomVendor env segs.2
  let pctOff := randomIntegerInRange env 10 50 v.2
  let vendorOfferId := randomIntegerInRange env 1 1000 pctOff.2
  let p := randomPointInCity env city vendorOfferId.2
  let cl := randomChoice env [8, 10] 8 p.2
  let olc := env.encode p.1.2 p.1.1 cl.1
  let area := env.decode olc
  let bounds : GeoBounds := ⟨(area.latitudeHi, area.longitudeHi), (area.latitudeLo, area.longitudeLo)⟩
  let bid := randomIntegerInRange env 2 15 cl.2
  ({ segments := segs.1
     notificationZone := env.boundsToWKTPolygon bounds
     notificationContent := toString pctOff.1 ++ "% off at " ++ v.1.vendor
     notificationTarget := "https://" ++ vendorDomain v.1 ++ "/s2cellular?offerId=" ++ toString vendorOfferId.1
     maximumBidCents := bid.1 }, bid.2)

/-- `randomOffers` (source lines 236-237): `numOffers` offers drawn in
sequence. -/
def randomOffers (env : GenEnv) (city : CityConfig) : Nat → Nat → List Offer × Nat
  | 0, i => ([], i)
  | n + 1, i =>
      let o := randomOffer env city i
      let rest := randomOffers env city n o.2
      (o.1 :: rest.1, rest.2)

/-- Parse a non-empty all-digit character run as a decimal natural number;
anything else is rejected. -/
def parseNatStrict (l : List Char) : Option Nat :=
  if l ≠ [] ∧ ∀ c ∈ l, c.isDigit = true then
    some (l.foldl (fun acc c => acc * 10 + (c.toNat - 48)) 0)
  else none

/-- Split a character list at every comma (the separators of a JSON array
body); always returns at least one (possibly empty) field. -/
def splitOnComma : List Char → List (List Char)
  | [] => [[]]
  | c :: cs =>
      let r := splitOnComma cs
      if c = ',' then [] :: r
      else (c :: r.headD []) :: r.tail

/-- Apply a fallible function to every element, succeeding only if every
application succeeds. -/
def mapOption (f : α → Option β) : List α → Option (List β)
  | [] => some []
  | a :: l => (f a).bind fun b => (mapOption f l).map fun bl => b :: bl

/-- Parse a JSON array of non-negative integers, the inverse direction of
`jsonNatArray`: an opening bracket, comma-separated decimal integers, a
closing bracket. -/
def parseJsonNatList (s : String) : Option (List Nat) :=
  match s.data with
  | '[' :: rest =>
      if rest.getLast? = some ']' then
        if rest.dropLast = [] then some []
        else mapOption parseNatStrict (splitOnComma rest.dropLast)
      else none
  | _ => none

/-- The partition of a list into consecutive batches of `k` elements (the
last batch possibly shorter): the sequence of batches `createOffers` commits. -/
def chunksOf (k : Nat) : List α → List (List α)
  | [] => []
  | x :: xs =>
      if k = 0 then []
      else (x :: xs).take k :: chunksOf k ((x :: xs).drop k)
termination_by l => l.length
decreasing_by
  simp only [List.length_drop, List.length_cons]
  omega

/-- The accumulated `createOffers` state after appending the offers of `acc`
on top of already-committed flushes `fs`. -/
def mkState (cid : Int) (acc : List Offer) (fs : List Flush) : OffersState :=
  ⟨⟨"offers", offersColumns, acc.map (offerRowValues cid)⟩,
   acc.flatMap Offer.segments, acc.length, fs⟩

/-- The flush committed for one batch of offers: the batch's offer rows
together with the rows for all segments referenced by the batch. -/
def flushSpec (cid : Int) (batch : List Offer) : Flush :=
  ⟨batch.map (offerRowValues cid), (batch.flatMap Offer.segments).map segmentRowValues⟩

/-- A concrete segment, used to instantiate universally quantified results. -/
def sampleSegment : Segment := ⟨.minute, .purchase, "Acme"⟩

/-- A second concrete segment with a different hash. -/
def sampleSegmentB : Segment := ⟨.minute, .purchase, "Beta"⟩

/-- A third concrete segment with a different hash. -/
def sampleSegmentC : Segment := ⟨.minute, .purchase, "Gamma"⟩

/-- A concrete offer referencing `sampleSegment`. -/
def sampleOffer : Offer := ⟨[sampleSegment], "Z", "content", "target", 5⟩

/-- A concrete offer with segments `[sampleSegment, sampleSegmentB]`. -/
def sampleOfferA : Offer := ⟨[sampleSegment, sampleSegmentB], "Z", "c", "t", 5⟩

/-- A concrete offer with segments `[sampleSegmentB, sampleSegmentC]`. -/
def sampleOfferB : Offer := ⟨[sampleSegmentB, sampleSegmentC], "Z", "c", "t", 6⟩

/-- An execution oracle on which every statement fails. -/
def failConfig : Config := fun _ _ => false

/-- A concrete generator environment whose random stream is constantly 1/2. -/
def sampleEnv : GenEnv :=
  ⟨fun _ => 1 / 2, [⟨"Acme", "com"⟩], fun _ _ _ => "22222222+",
   fun _ => ⟨0, 0, 0, 0⟩, fun _ => "P"⟩

/-- A concrete generator environment whose random stream is constantly 0,
so the first segment kind drawn is `olc_8`. -/
def zeroEnv : GenEnv :=
  ⟨fun _ => 0, [⟨"Acme", "com"⟩], fun _ _ _ => "22222222+",
   fun _ => ⟨0, 0, 0, 0⟩, fun _ => "P"⟩

/-- A city configuration with zero diameter. -/
def zeroCity : CityConfig := ⟨"Nowhere", (3, 4), 0⟩

/-! ### Decimal rendering and parsing -/

theorem digitChar_isDigit {d : Nat} (hd : d < 10) : (Nat.digitChar d).isDigit = true := by
  interval_cases d <;> decide

theorem digitChar_val {d : Nat} (hd : d < 10) : (Nat.digitChar d).toNat - 48 = d := by
  interval_cases d <;> decide

theorem natDigitsAux_congr : ∀ f g n, n < f → n < g → natDigitsAux f n = natDigitsAux g n := by
  intro f
  induction f with
  | zero => intro g n hf; omega
  | succ f ih =>
      intro g n hf hg
      cases g with
      | zero => omega
      | succ g =>
          simp only [natDigitsAux]
          by_cases h10 : n < 10
          · simp [h10]
          · have hdiv : n / 10 < n := Nat.div_lt_self (by omega) (by omega)
            simp only [if_neg h10]
            rw [ih g (n / 10) (by omega) (by omega)]

theorem natDigits_eq (n : Nat) :
    natDigits n =
      if n < 10 then [Nat.digitChar n]
      else natDigits (n / 10) ++ [Nat.digitChar (n % 10)] := by
  show natDigitsAux (n + 1) n = _
  simp only [natDigitsAux]
  by_cases h10 : n < 10
  · simp [h10]
  · have hdiv : n / 10 < n := Nat.div_lt_self (by omega) (by omega)
    simp only [if_neg h10]
    rw [natDigitsAux_congr n (n / 10 + 1) (n / 10) (by omega) (by omega)]
    rfl

theorem natDigits_ne_nil (n : Nat) : natDigits n ≠ [] := by
  rw [natDigits_eq]
  split <;> simp

theorem natDigits_isDigit : ∀ n, ∀ c ∈ natDigits n, c.isDigit = true := by
  intro n
  induction n using Nat.strong_induction_on with
  | _ n ih =>
      rw [natDigits_eq]
      by_cases h10 : n < 10
      · rw [if_pos h10]
        intro c hc
        rw [List.mem_singleton] at hc
        subst hc
        exact digitChar_isDigit h10
      · rw [if_neg h10]
        intro c hc
        rw [List.mem_append, List.mem_singleton] at hc
        rcases hc with hc | rfl
        · exact ih (n / 10) (Nat.div_lt_self (by omega) (by omega)) c hc
        · exact digitChar_isDigit (Nat.mod_lt _ (by omega))

theorem foldl_natDigits : ∀ n acc,
    List.foldl (fun acc c => acc * 10 + (c.toNat - 48)) acc (natDigits n)
      = acc * 10 ^ (natDigits n).length + n := by
  intro n
  induction n using Nat.strong_induction_on with
  | _ n ih =>
      intro acc
      rw [natDigits_eq]
      by_cases h10 : n < 10
      · rw [if_pos h10]
        simp only [List.foldl_cons, List.foldl_nil, List.length_singleton, pow_one]
        rw [digitChar_val h10]
      · rw [if_neg h10]
        have hm : n % 10 < 10 := Nat.mod_lt _ (by omega)
        rw [List.foldl_append, ih (n / 10) (Nat.div_lt_self (by omega) (by omega))]
        simp only [List.foldl_cons, List.foldl_nil, List.length_append, List.length_singleton,
          pow_succ]
        rw [digitChar_val hm]
        have h2 : n / 10 * 10 + n % 10 = n := by omega
        calc (acc * 10 ^ (natDigits (n / 10)).length + n / 10) * 10 + n % 10
            = acc * (10 ^ (natDigits (n / 10)).length * 10) + (n / 10 * 10 + n % 10) := by ring
          _ = acc * (10 ^ (natDigits (n / 10)).length * 10) + n := by rw [h2]

theorem parseNatStrict_natDigits (n : Nat) : parseNatStrict (natDigits n) = some n := by
  rw [parseNatStrict, if_pos ⟨natDigits_ne_nil n, natDigits_isDigit n⟩, foldl_natDigits]
  simp

theorem splitOnComma_no_comma : ∀ (l : List Char), (∀ c ∈ l, ¬(c = ',')) →
    splitOnComma l = [l] := by
  intro l
  induction l with
  | nil => intro _; rfl
  | cons c cs ih =>
      intro h
      have hc : ¬(c = ',') := h c (List.mem_cons_self c cs)
      have hr : splitOnComma cs = [cs] := ih fun d hd => h d (List.mem_cons_of_mem c hd)
      simp [splitOnComma, hr, hc]

theorem splitOnComma_split : ∀ (l₁ : List Char), (∀ c ∈ l₁, ¬(c = ',')) → ∀ (l₂ : List Char),
    splitOnComma (l₁ ++ ',' :: l₂) = l₁ :: splitOnComma l₂ := by
  intro l₁
  induction l₁ with
  | nil =>
      intro _ l₂
      simp [splitOnComma]
  | cons c cs ih =>
      intro h l₂
      have hc : ¬(c = ',') := h c (List.mem_cons_self c cs)
      have hr := ih (fun d hd => h d (List.mem_cons_of_mem c hd)) l₂
      simp only [List.cons_append, splitOnComma, if_neg hc, List.append_eq]
      rw [hr]
      rfl

theorem natDigits_no_comma (n : Nat) : ∀ c ∈ natDigits n, ¬(c = ',') := by
  intro c hc h
  have := natDigits_isDigit n c hc
  rw [h] at this
  exact absurd this (by decide)

theorem renderBody_ne_nil (n : Nat) (rest : List Nat) : renderBody (n :: rest) ≠ [] := by
  cases rest with
  | nil => exact natDigits_ne_nil n
  | cons m r =>
      simp only [renderBody]
      intro h
      exact natDigits_ne_nil n (List.append_eq_nil.mp h).1

theorem mapOption_renderBody : ∀ (rest : List Nat) (n : Nat),
    mapOption parseNatStrict (splitOnComma (renderBody (n :: rest))) = some (n :: rest) := by
  intro rest
  induction rest with
  | nil =>
      intro n
      show mapOption parseNatStrict (splitOnComma (natDigits n)) = some [n]
      rw [splitOnComma_no_comma _ (natDigits_no_comma n)]
      simp [mapOption, parseNatStrict_natDigits n]
  | cons m r ih =>
      intro n
      show mapOption parseNatStrict (splitOnComma (natDigits n ++ ',' :: renderBody (m :: r)))
          = some (n :: m :: r)
      rw [splitOnComma_split _ (natDigits_no_comma n)]
      simp [mapOption, parseNatStrict_natDigits n, ih m]

theorem parseJsonNatList_jsonNatArray (ids : List Nat) :
    parseJsonNatList (jsonNatArray ids) = some ids := by
  have hdata : (jsonNatArray ids).data = '[' :: (renderBody ids ++ [']']) := rfl
  simp only [parseJsonNatList, hdata]
  rw [List.getLast?_concat, List.dropLast_concat]
  simp only [if_pos rfl]
  cases ids with
  | nil => rfl
  | cons n rest =>
      rw [if_neg (renderBody_ne_nil n rest)]
      exact mapOption_renderBody rest n

/-! ### Chunking -/

theorem chunksOf_nil (k : Nat) : chunksOf k ([] : List α) = [] := by
  simp [chunksOf]

theorem chunksOf_small {k : Nat} {l : List α} (hk : k ≠ 0) (hne : l ≠ [])
    (hle : l.length ≤ k) : chunksOf k l = [l] := by
  obtain ⟨x, xs, rfl⟩ := List.exists_cons_of_ne_nil hne
  rw [chunksOf, if_neg hk, List.take_of_length_le hle, List.drop_eq_nil_of_le hle, chunksOf_nil]

theorem chunksOf_exact {k : Nat} {l₁ : List α} (hk : k ≠ 0) (hlen : l₁.length = k)
    (l₂ : List α) : chunksOf k (l₁ ++ l₂) = l₁ :: chunksOf k l₂ := by
  cases l₁ with
  | nil =>
      rw [List.length_nil] at hlen
      exact absurd hlen.symm hk
  | cons x xs =>
      rw [List.cons_append, chunksOf, if_neg hk, ← List.cons_append]
      rw [← hlen, List.take_left, List.drop_left]

theorem chunksOf_length_aux : ∀ (fuel : Nat) (l : List α), l.length ≤ fuel →
    (chunksOf MAX_OFFERS_PER_BATCH l).length = (l.length + 499) / 500 := by
  intro fuel
  induction fuel with
  | zero =>
      intro l hl
      rw [Nat.le_zero, List.length_eq_zero] at hl
      subst hl
      rw [chunksOf_nil]
      simp
  | succ fuel ih =>
      intro l hl
      cases l with
      | nil =>
          rw [chunksOf_nil]
          simp
      | cons x xs =>
          rw [chunksOf, if_neg (by simp [MAX_OFFERS_PER_BATCH])]
          have hdrop : ((x :: xs).drop MAX_OFFERS_PER_BATCH).length ≤ fuel := by
            simp only [List.length_drop, List.length_cons] at hl ⊢
            simp only [MAX_OFFERS_PER_BATCH]
            omega
          rw [List.length_cons, ih _ hdrop]
          simp only [List.length_drop, List.length_cons, MAX_OFFERS_PER_BATCH]
          omega

theorem chunksOf_length {l : List α} :
    (chunksOf MAX_OFFERS_PER_BATCH l).length = (l.length + 499) / 500 :=
  chunksOf_length_aux l.length l le_rfl

theorem chunksOf_flatten_aux {k : Nat} (hk : k ≠ 0) : ∀ (fuel : Nat) (l : List α),
    l.length ≤ fuel → (chunksOf k l).flatten = l := by
  intro fuel
  induction fuel with
  | zero =>
      intro l hl
      rw [Nat.le_zero, List.length_eq_zero] at hl
      subst hl
      rw [chunksOf_nil]
      rfl
  | succ fuel ih =>
      intro l hl
      cases l with
      | nil =>
          rw [chunksOf_nil]
          rfl
      | cons x xs =>
          rw [chunksOf, if_neg hk, List.flatten_cons]
          rw [ih _ (by simp only [List.length_drop, List.length_cons] at hl ⊢; omega)]
          exact List.take_append_drop k (x :: xs)

theorem chunksOf_flatten {k : Nat} (hk : k ≠ 0) (l : List α) :
    (chunksOf k l).flatten = l :=
  chunksOf_flatten_aux hk l.length l le_rfl

theorem mem_of_mem_chunksOf {k : Nat} (hk : k ≠ 0) {l : List α} {c : List α} {a : α}
    (hc : c ∈ chunksOf k l) (ha : a ∈ c) : a ∈ l := by
  rw [← chunksOf_flatten hk l]
  exact List.mem_flatten.mpr ⟨c, hc, ha⟩

/-! ### The batching loop of createOffers -/

theorem createSegmentsStmt_rows_aux : ∀ (l : List Segment) (m : MultiReplace),
    (l.foldl (fun m s => m.append (segmentRowValues s)) m).rows
      = m.rows ++ l.map segmentRowValues := by
  intro l
  induction l with
  | nil =>
      intro m
      simp
  | cons s l ih =>
      intro m
      rw [List.foldl_cons, ih]
      simp [MultiReplace.append]

theorem createSegmentsStmt_rows (l : List Segment) :
    (createSegmentsStmt l).rows = l.map segmentRowValues := by
  simp [createSegmentsStmt, createSegmentsStmt_rows_aux]

theorem appendOffer_mkState (cid : Int) (o : Offer) (acc : List Offer) (fs : List Flush) :
    appendOffer cid o (mkState cid acc fs) = mkState cid (acc ++ [o]) fs := by
  simp [appendOffer, mkState, MultiReplace.append]

theorem commitBatch_allOk_mkState (cid : Int) (acc : List Offer) (fs : List Flush) :
    commitBatch allOk (mkState cid acc fs)
      = Except.ok (mkState cid [] (fs ++ [flushSpec cid acc])) := by
  simp [commitBatch, allOk, createSegments, mkState, MultiReplace.clear, flushSpec,
    createSegmentsStmt_rows]

theorem createOffersFrom_nil (config : Config) (cid : Int) (st : OffersState) :
    createOffersFrom config cid [] st = finishBatch config st := rfl

theorem createOffersFrom_cons (config : Config) (cid : Int) (o : Offer) (rest : List Offer)
    (st : OffersState) :
    createOffersFrom config cid (o :: rest) st =
      if (appendOffer cid o st).numOffers ≥ MAX_OFFERS_PER_BATCH then
        match commitBatch config (appendOffer cid o st) with
        | Except.ok st' => createOffersFrom config cid rest st'
        | Except.error e => Except.error e
      else createOffersFrom config cid rest (appendOffer cid o st) := by
  show (match createOffersLoop config cid (o :: rest) st with
        | Except.ok st' => finishBatch config st'
        | Except.error e => Except.error e) = _
  rw [createOffersLoop]
  by_cases h : (appendOffer cid o st).numOffers ≥ MAX_OFFERS_PER_BATCH
  · rw [if_pos h, if_pos h]
    cases commitBatch config (appendOffer cid o st) with
    | ok st' => rfl
    | error e => rfl
  · rw [if_neg h, if_neg h]
    rfl

theorem createOffersFrom_allOk (cid : Int) : ∀ (rest acc : List Offer) (fs : List Flush),
    acc.length < MAX_OFFERS_PER_BATCH →
    createOffersFrom allOk cid rest (mkState cid acc fs)
      = Except.ok (fs ++ (chunksOf MAX_OFFERS_PER_BATCH (acc ++ rest)).map (flushSpec cid)) := by
  intro rest
  induction rest with
  | nil =>
      intro acc fs hlt
      rw [createOffersFrom_nil, List.append_nil]
      by_cases hacc : acc = []
      · subst hacc
        rw [chunksOf_nil]
        simp [finishBatch, mkState]
      · have hpos : 0 < acc.length := List.length_pos.mpr hacc
        have : finishBatch allOk (mkState cid acc fs)
            = match commitBatch allOk (mkState cid acc fs) with
              | Except.ok st' => Except.ok st'.flushes
              | Except.error e => Except.error e := by
          rw [finishBatch, if_pos (show (mkState cid acc fs).numOffers > 0 from hpos)]
        rw [this, commitBatch_allOk_mkState]
        rw [chunksOf_small (by simp [MAX_OFFERS_PER_BATCH]) hacc (le_of_lt hlt)]
        rfl
  | cons o rest ih =>
      intro acc fs hlt
      rw [createOffersFrom_cons, appendOffer_mkState]
      have hnum : (mkState cid (acc ++ [o]) fs).numOffers = acc.length + 1 := by
        simp [mkState]
      by_cases hfull : acc.length + 1 = MAX_OFFERS_PER_BATCH
      · rw [if_pos (by rw [hnum, hfull])]
        rw [commitBatch_allOk_mkState]
        have hlist : acc ++ o :: rest = (acc ++ [o]) ++ rest := by simp
        rw [show (match Except.ok (mkState cid [] (fs ++ [flushSpec cid (acc ++ [o])])) with
              | Except.ok st' => createOffersFrom allOk cid rest st'
              | Except.error e => Except.error (α := List Flush) e)
            = createOffersFrom allOk cid rest
                (mkState cid [] (fs ++ [flushSpec cid (acc ++ [o])])) from rfl]
        rw [ih [] (fs ++ [flushSpec cid (acc ++ [o])]) (by simp [MAX_OFFERS_PER_BATCH])]
        simp only [List.nil_append]
        rw [hlist, chunksOf_exact (by simp [MAX_OFFERS_PER_BATCH]) (by simpa using hfull) rest]
        simp
      · rw [if_neg (by rw [hnum]; omega)]
        rw [ih (acc ++ [o]) fs
          (by simp only [List.length_append, List.length_singleton]
              simp only [MAX_OFFERS_PER_BATCH] at hlt hfull ⊢
              omega)]
        rw [show (acc ++ [o]) ++ rest = acc ++ o :: rest by simp]

theorem createOffers_allOk (offers : List Offer) (cid : Int) :
    createOffers allOk offers cid
      = Except.ok ((chunksOf MAX_OFFERS_PER_BATCH offers).map (flushSpec cid)) := by
  have h := createOffersFrom_allOk cid offers [] [] (by simp [MAX_OFFERS_PER_BATCH])
  have hinit : mkState cid [] [] = initState := rfl
  rw [hinit] at h
  rw [createOffers, h]
  simp

/-! ### Failure behaviour of commitBatch -/

theorem commitBatch_fails {config : Config} {st : OffersState}
    (hc : (config st.stmt.sql st.stmt.params && createSegments config st.segments) = false) :
    commitBatch config st = Except.error st := by
  rw [commitBatch, if_neg (by simp [hc])]

theorem commitBatch_error_eq {config : Config} {st e : OffersState}
    (h : commitBatch config st = Except.error e) :
    e = st
    ∧ (config st.stmt.sql st.stmt.params && createSegments config st.segments) = false := by
  rw [commitBatch] at h
  by_cases hc : (config st.stmt.sql st.stmt.params && createSegments config st.segments) = true
  · rw [if_pos hc] at h
    exact absurd h (by simp)
  · rw [if_neg hc] at h
    injection h with he
    exact ⟨he.symm, by simpa using hc⟩

theorem createOffersFrom_error (config : Config) (cid : Int) : ∀ (offers : List Offer)
    (st0 e : OffersState), createOffersFrom config cid offers st0 = Except.error e →
    (config e.stmt.sql e.stmt.params && createSegments config e.segments) = false := by
  intro offers
  induction offers with
  | nil =>
      intro st0 e h
      rw [createOffersFrom_nil, finishBatch] at h
      by_cases hn : st0.numOffers > 0
      · rw [if_pos hn] at h
        cases hcb : commitBatch config st0 with
        | ok st' =>
            rw [hcb] at h
            exact absurd h (by simp)
        | error e' =>
            rw [hcb] at h
            injection h with he
            subst he
            obtain ⟨rfl, hc⟩ := commitBatch_error_eq hcb
            exact hc
      · rw [if_neg hn] at h
        exact absurd h (by simp)
  | cons o rest ih =>
      intro st0 e h
      rw [createOffersFrom_cons] at h
      by_cases hfull : (appendOffer cid o st0).numOffers ≥ MAX_OFFERS_PER_BATCH
      · rw [if_pos hfull] at h
        cases hcb : commitBatch config (appendOffer cid o st0) with
        | ok st' =>
            rw [hcb] at h
            exact ih st' e h
        | error e' =>
            rw [hcb] at h
            injection h with he
            subst he
            obtain ⟨rfl, hc⟩ := commitBatch_error_eq hcb
            exact hc
      · rw [if_neg hfull] at h
        exact ih _ e h

/-! ### Generator lemmas -/

theorem randomIntegerInRange_two_fifteen (env : GenEnv)
    (hr : ∀ j, 0 ≤ env.rand j ∧ env.rand j < 1) (i : Nat) :
    2 ≤ (randomIntegerInRange env 2 15 i).1 ∧ (randomIntegerInRange env 2 15 i).1 < 15 := by
  obtain ⟨h0, h1⟩ := hr i
  have hval : (randomIntegerInRange env 2 15 i).1
      = ⌊env.rand i * (15 - 2) + 2⌋ := rfl
  constructor
  · rw [hval]
    apply Int.le_floor.mpr
    push_cast
    nlinarith
  · rw [hval]
    apply Int.floor_lt.mpr
    push_cast
    nlinarith

theorem randomIntegerInRange_one_three (env : GenEnv)
    (hr : ∀ j, 0 ≤ env.rand j ∧ env.rand j < 1) (i : Nat) :
    (randomIntegerInRange env 1 3 i).1 = 1 ∨ (randomIntegerInRange env 1 3 i).1 = 2 := by
  obtain ⟨h0, h1⟩ := hr i
  have hval : (randomIntegerInRange env 1 3 i).1
      = ⌊env.rand i * (3 - 1) + 1⌋ := rfl
  have hlo : 1 ≤ (randomIntegerInRange env 1 3 i).1 := by
    rw [hval]
    apply Int.le_floor.mpr
    push_cast
    nlinarith
  have hhi : (randomIntegerInRange env 1 3 i).1 < 3 := by
    rw [hval]
    apply Int.floor_lt.mpr
    push_cast
    nlinarith
  omega

theorem randomSegmentList_length (env : GenEnv) (city : CityConfig) :
    ∀ (n i : Nat), ((randomSegmentList env city n i).1).length = n := by
  intro n
  induction n with
  | zero => intro i; rfl
  | succ n ih =>
      intro i
      simp only [randomSegmentList, List.length_cons]
      rw [ih]

theorem randomOffer_bid_eq (env : GenEnv) (city : CityConfig) (i : Nat) :
    ∃ j, (randomOffer env city i).1.maximumBidCents = (randomIntegerInRange env 2 15 j).1 :=
  ⟨_, rfl⟩

theorem randomOffer_segments_eq (env : GenEnv) (city : CityConfig) (i : Nat) :
    (randomOffer env city i).1.segments
      = (randomSegmentList env city ((randomIntegerInRange env 1 3 i).1).toNat
          (randomIntegerInRange env 1 3 i).2).1 := rfl

theorem randomOffer_valid (env : GenEnv) (hr : ∀ j, 0 ≤ env.rand j ∧ env.rand j < 1)
    (city : CityConfig) (i : Nat) :
    (2 ≤ (randomOffer env city i).1.maximumBidCents
      ∧ (randomOffer env city i).1.maximumBidCents < 15)
    ∧ ((randomOffer env city i).1.segments.length = 1
      ∨ (randomOffer env city i).1.segments.length = 2) := by
  constructor
  · obtain ⟨j, hj⟩ := randomOffer_bid_eq env city i
    rw [hj]
    exact randomIntegerInRange_two_fifteen env hr j
  · rw [randomOffer_segments_eq, randomSegmentList_length]
    rcases randomIntegerInRange_one_three env hr i with h | h <;> rw [h] <;> simp

theorem mem_take8 {l : List Char} {c : Char} {n : Nat} (hn : n ≤ 8) (hc : c ∈ l.take n) :
    c ∈ l.take 8 := by
  have heq : l.take n = (l.take 8).take n := by
    rw [List.take_take, Nat.min_eq_left hn]
  rw [heq] at hc
  exact List.take_subset n _ hc

/-! ### Claim theorems -/

/-- C1: under a healthy database, `createOffers` over `N` offers commits exactly
`ceil(N / 500)` flushes (each one execution of the offers builder statement
paired with a segments write), the total number of offer rows across all
flushes is exactly `N`, and for an empty input it commits no flush at all. -/
theorem createOffers_batching (offers : List Offer) (cid : Int) :
    createOffers allOk offers cid
        = Except.ok ((chunksOf MAX_OFFERS_PER_BATCH offers).map (flushSpec cid))
    ∧ ((chunksOf MAX_OFFERS_PER_BATCH offers).map (flushSpec cid)).length
        = (offers.length + 499) / 500
    ∧ (((chunksOf MAX_OFFERS_PER_BATCH offers).map (flushSpec cid)).map
        (fun f => f.offerRows.length)).sum = offers.length
    ∧ createOffers allOk ([] : List Offer) cid = Except.ok [] := by
  refine ⟨createOffers_allOk offers cid, ?_, ?_, ?_⟩
  · rw [List.length_map, chunksOf_length]
  · rw [List.map_map]
    have hcomp : ((fun f : Flush => f.offerRows.length) ∘ flushSpec cid)
        = (List.length : List Offer → Nat) := by
      funext c
      simp [flushSpec]
    rw [hcomp, ← List.length_flatten, chunksOf_flatten (by simp [MAX_OFFERS_PER_BATCH])]
  · rw [createOffers_allOk ([] : List Offer) cid, chunksOf_nil]
    rfl

/-- C2: `segmentId` is the hash of the string `interval-kind-value`, its result
is a non-negative integer, and it is a pure deterministic function of the
triple: two segments agreeing on all three fields get the same id. -/
theorem segmentId_deterministic :
    (∀ s : Segment,
        segmentId s = stringHash (s.interval.toStr ++ "-" ++ s.kind.toStr ++ "-" ++ s.value))
    ∧ (∀ s : Segment, (0 : Int) ≤ (segmentId s : Int))
    ∧ (∀ s t : Segment,
        s.interval = t.interval → s.kind = t.kind → s.value = t.value →
        segmentId s = segmentId t) := by
  refine ⟨fun s => rfl, fun s => Int.natCast_nonneg _, ?_⟩
  intro s t h1 h2 h3
  have hst : s = t := by
    cases s
    cases t
    dsimp only at h1 h2 h3
    rw [h1, h2, h3]
  rw [hst]

/-- Witness for C2 at a concrete pair of segments with equal fields. -/
theorem segmentId_deterministic_witness :
    segmentId ⟨SegmentInterval.minute, SegmentKind.purchase, "Acme"⟩
      = segmentId ⟨SegmentInterval.minute, SegmentKind.purchase, "Acme"⟩ :=
  segmentId_deterministic.2.2 _ _ rfl rfl rfl

/-- C3: a flush succeeds exactly when both the offers write and the segments
write succeed, and every committed flush carries, together, the offer rows of
one batch and the segment rows of that same batch's referenced segments. -/
theorem commitBatch_atomicity :
    (∀ (config : Config) (st st' : OffersState), commitBatch config st = Except.ok st' →
        config st.stmt.sql st.stmt.params = true
        ∧ createSegments config st.segments = true
        ∧ st'.flushes = st.flushes
            ++ [⟨st.stmt.rows, (createSegmentsStmt st.segments).rows⟩])
    ∧ (∀ (offers : List Offer) (cid : Int) (fs : List Flush) (f : Flush),
        createOffers allOk offers cid = Except.ok fs → f ∈ fs →
        ∃ batch : List Offer, f.offerRows = batch.map (offerRowValues cid)
          ∧ f.segmentRows = (batch.flatMap Offer.segments).map segmentRowValues) := by
  constructor
  · intro config st st' h
    rw [commitBatch] at h
    by_cases hc : (config st.stmt.sql st.stmt.params && createSegments config st.segments) = true
    · rw [if_pos hc] at h
      injection h with h'
      subst h'
      rcases Bool.and_eq_true_iff.mp hc with ⟨hc1, hc2⟩
      exact ⟨hc1, hc2, rfl⟩
    · rw [if_neg hc] at h
      exact absurd h (by simp)
  · intro offers cid fs f h hf
    rw [createOffers_allOk] at h
    injection h with h'
    subst h'
    rw [List.mem_map] at hf
    obtain ⟨batch, hb, rfl⟩ := hf
    exact ⟨batch, rfl, rfl⟩

/-- Witness for C3: the single-offer batch commits and its flush pairs the
offer rows with the segment rows. -/
theorem commitBatch_atomicity_witness :
    allOk (mkState 0 [sampleOffer] []).stmt.sql (mkState 0 [sampleOffer] []).stmt.params = true
    ∧ createSegments allOk (mkState 0 [sampleOffer] []).segments = true
    ∧ (mkState 0 ([] : List Offer) ([] ++ [flushSpec 0 [sampleOffer]])).flushes
        = (mkState 0 [sampleOffer] []).flushes
          ++ [⟨(mkState 0 [sampleOffer] []).stmt.rows,
               (createSegmentsStmt (mkState 0 [sampleOffer] []).segments).rows⟩] :=
  commitBatch_atomicity.1 allOk (mkState 0 [sampleOffer] [])
    (mkState 0 ([] : List Offer) ([] ++ [flushSpec 0 [sampleOffer]]))
    (commitBatch_allOk_mkState 0 [sampleOffer] [])

/-- C4: every offer row written by `createOffers` stores in its `segment_ids`
column (index 2) the JSON array of the offer's segment ids, in the offer's own
segment order, and parsing that JSON string gives back exactly that id list. -/
theorem createOffers_segment_ids_roundtrip :
    ∀ (offers : List Offer) (cid : Int) (fs : List Flush),
      createOffers allOk offers cid = Except.ok fs →
      ∀ f ∈ fs, ∀ row ∈ f.offerRows,
        ∃ o, o ∈ offers ∧ row = offerRowValues cid o
          ∧ row.getD 2 (SqlValue.str "")
              = SqlValue.str (jsonNatArray (o.segments.map segmentId))
          ∧ parseJsonNatList (jsonNatArray (o.segments.map segmentId))
              = some (o.segments.map segmentId) := by
  intro offers cid fs h f hf row hrow
  rw [createOffers_allOk] at h
  injection h with h'
  subst h'
  rw [List.mem_map] at hf
  obtain ⟨batch, hb, rfl⟩ := hf
  have hrow' : row ∈ batch.map (offerRowValues cid) := hrow
  rw [List.mem_map] at hrow'
  obtain ⟨o, ho, rfl⟩ := hrow'
  exact ⟨o, mem_of_mem_chunksOf (by simp [MAX_OFFERS_PER_BATCH]) hb ho, rfl, rfl,
    parseJsonNatList_jsonNatArray _⟩

/-- Witness for C4 on a concrete single-offer run. -/
theorem createOffers_segment_ids_roundtrip_witness :
    ∃ o, o ∈ [sampleOffer] ∧ offerRowValues 0 sampleOffer = offerRowValues 0 o
      ∧ (offerRowValues 0 sampleOffer).getD 2 (SqlValue.str "")
          = SqlValue.str (jsonNatArray (o.segments.map segmentId))
      ∧ parseJsonNatList (jsonNatArray (o.segments.map segmentId))
          = some (o.segments.map segmentId) :=
  createOffers_segment_ids_roundtrip [sampleOffer] 0
    [⟨[offerRowValues 0 sampleOffer], [segmentRowValues sampleSegment]⟩] rfl
    ⟨[offerRowValues 0 sampleOffer], [segmentRowValues sampleSegment]⟩ (by simp)
    (offerRowValues 0 sampleOffer) (by simp)

/-- C5: when offer A has segments `[s1, s2]` and offer B `[s2, s3]` in one
batch, the batch's segments flush carries the rows of s1, s2 (twice, once per
reference) and s3; applying the REPLACE statement to the relation never
errors on the repeated id and leaves exactly one row per distinct segment,
with s2's row stored once. -/
theorem createOffers_segment_aggregation (s1 s2 s3 : Segment) (A B : Offer) (cid : Int)
    (hA : A.segments = [s1, s2]) (hB : B.segments = [s2, s3])
    (h12 : segmentId s1 ≠ segmentId s2) (h13 : segmentId s1 ≠ segmentId s3)
    (h23 : segmentId s2 ≠ segmentId s3) :
    createOffers allOk [A, B] cid
      = Except.ok [⟨[offerRowValues cid A, offerRowValues cid B],
          [segmentRowValues s1, segmentRowValues s2,
           segmentRowValues s2, segmentRowValues s3]⟩]
    ∧ applyReplace []
        [segmentRowValues s1, segmentRowValues s2,
         segmentRowValues s2, segmentRowValues s3]
      = [segmentRowValues s1, segmentRowValues s2, segmentRowValues s3] := by
  have hb12 : (SqlValue.int (segmentId s1 : Int) != SqlValue.int (segmentId s2 : Int)) = true := by
    rw [bne_iff_ne]
    intro hcontra
    exact h12 (by exact_mod_cast SqlValue.int.inj hcontra)
  have hb13 : (SqlValue.int (segmentId s1 : Int) != SqlValue.int (segmentId s3 : Int)) = true := by
    rw [bne_iff_ne]
    intro hcontra
    exact h13 (by exact_mod_cast SqlValue.int.inj hcontra)
  have hb23 : (SqlValue.int (segmentId s2 : Int) != SqlValue.int (segmentId s3 : Int)) = true := by
    rw [bne_iff_ne]
    intro hcontra
    exact h23 (by exact_mod_cast SqlValue.int.inj hcontra)
  constructor
  · rw [createOffers_allOk]
    have hch : chunksOf MAX_OFFERS_PER_BATCH [A, B] = [[A, B]] :=
      chunksOf_small (by simp [MAX_OFFERS_PER_BATCH]) (by simp)
        (by simp [MAX_OFFERS_PER_BATCH])
    rw [hch]
    simp [flushSpec, hA, hB]
  · simp only [applyReplace, segmentRowValues, List.foldl_cons, List.foldl_nil,
      List.getD_cons_zero, List.filter_cons, List.filter_nil, hb12, hb13, hb23,
      bne_self_eq_false]
    simp [List.filter_cons, hb12, hb13, hb23]

/-- Witness for C5 on three concrete segments with pairwise distinct ids. -/
theorem createOffers_segment_aggregation_witness :
    createOffers allOk [sampleOfferA, sampleOfferB] 0
      = Except.ok [⟨[offerRowValues 0 sampleOfferA, offerRowValues 0 sampleOfferB],
          [segmentRowValues sampleSegment, segmentRowValues sampleSegmentB,
           segmentRowValues sampleSegmentB, segmentRowValues sampleSegmentC]⟩]
    ∧ applyReplace [] [segmentRowValues sampleSegment, segmentRowValues sampleSegmentB,
        segmentRowValues sampleSegmentB, segmentRowValues sampleSegmentC]
      = [segmentRowValues sampleSegment, segmentRowValues sampleSegmentB,
         segmentRowValues sampleSegmentC] :=
  createOffers_segment_aggregation sampleSegment sampleSegmentB sampleSegmentC
    sampleOfferA sampleOfferB 0 rfl rfl (by decide) (by decide) (by decide)

/-- C6: for any city and count, `randomOffers` returns exactly `count` offers,
each with `maximumBidCents` in the half-open range [2, 15) and 1 or 2
segments, provided every `Math.random` draw lies in [0, 1). -/
theorem randomOffers_validity (env : GenEnv)
    (hr : ∀ j, 0 ≤ env.rand j ∧ env.rand j < 1) (city : CityConfig) :
    ∀ (n i : Nat),
      ((randomOffers env city n i).1).length = n
      ∧ ∀ o ∈ (randomOffers env city n i).1,
          (2 ≤ o.maximumBidCents ∧ o.maximumBidCents < 15)
          ∧ (o.segments.length = 1 ∨ o.segments.length = 2) := by
  intro n
  induction n with
  | zero =>
      intro i
      exact ⟨rfl, fun o ho => absurd ho (List.not_mem_nil o)⟩
  | succ n ih =>
      intro i
      constructor
      · simp only [randomOffers, List.length_cons]
        rw [(ih _).1]
      · intro o ho
        simp only [randomOffers] at ho
        rw [List.mem_cons] at ho
        rcases ho with rfl | ho
        · exact randomOffer_valid env hr city i
        · exact (ih _).2 o ho

/-- Witness for C6: three offers are generated from the constant-1/2 stream. -/
theorem randomOffers_validity_witness :
    ((randomOffers sampleEnv DEFAULT_CITY 3 0).1).length = 3 :=
  (randomOffers_validity sampleEnv
    (fun j => by constructor <;> norm_num [sampleEnv]) DEFAULT_CITY 3 0).1

/-- C7: `randomPointInCity` performs no validation of the city: it always
returns normally after consuming exactly two random draws, and a zero
diameter degenerates the sample to exactly the city center. -/
theorem randomPointInCity_degenerate :
    (∀ (env : GenEnv) (city : CityConfig) (i : Nat),
        (randomPointInCity env city i).2 = i + 2)
    ∧ (∀ (env : GenEnv) (city : CityConfig) (i : Nat), city.diameter = 0 →
        (randomPointInCity env city i).1 = city.lonlat) := by
  constructor
  · intro env city i
    rfl
  · intro env city i h
    have hval : (randomPointInCity env city i).1
        = (env.rand i * ((city.lonlat.1 + city.diameter / 2)
              - (city.lonlat.1 - city.diameter / 2)) + (city.lonlat.1 - city.diameter / 2),
           env.rand (i + 1) * ((city.lonlat.2 + city.diameter / 2)
              - (city.lonlat.2 - city.diameter / 2))
             + (city.lonlat.2 - city.diameter / 2)) := rfl
    rw [hval, h]
    have hx : ∀ (r x : ℚ), r * ((x + 0 / 2) - (x - 0 / 2)) + (x - 0 / 2) = x := by
      intro r x
      ring
    rw [hx, hx]

/-- Witness for C7: the zero-diameter city yields its own center. -/
theorem randomPointInCity_degenerate_witness :
    (randomPointInCity sampleEnv zeroCity 0).1 = zeroCity.lonlat :=
  randomPointInCity_degenerate.2 sampleEnv zeroCity 0 rfl

/-- C8: if either of the two concurrent writes of a flush fails, `commitBatch`
propagates the error with the accumulated state untouched (builder rows,
pending segments and counter all unchanged), and any error escaping
`createOffers` carries exactly such an untouched pre-flush state. -/
theorem commitBatch_failure_keeps_state :
    (∀ (config : Config) (st : OffersState),
        (config st.stmt.sql st.stmt.params && createSegments config st.segments) = false →
        commitBatch config st = Except.error st)
    ∧ (∀ (config : Config) (offers : List Offer) (cid : Int) (e : OffersState),
        createOffers config offers cid = Except.error e →
        commitBatch config e = Except.error e) := by
  constructor
  · intro config st h
    exact commitBatch_fails h
  · intro config offers cid e h
    exact commitBatch_fails (createOffersFrom_error config cid offers initState e h)

/-- Witness for C8: with an always-failing oracle the one-offer state is
returned unchanged in the error. -/
theorem commitBatch_failure_keeps_state_witness :
    commitBatch failConfig (mkState 0 [sampleOffer] [])
      = Except.error (mkState 0 [sampleOffer] []) :=
  commitBatch_failure_keeps_state.1 failConfig (mkState 0 [sampleOffer] []) rfl

/-- C9: `DEFAULT_CUSTOMER_ID` is the sentinel 0, and when `createOffers` is
called without an explicit customer id every appended offer row carries it in
the `customer_id` column (index 0). -/
theorem createOffers_default_customer_id :
    DEFAULT_CUSTOMER_ID = 0
    ∧ ∀ (offers : List Offer) (fs : List Flush),
        createOffers allOk offers = Except.ok fs →
        ∀ f ∈ fs, ∀ row ∈ f.offerRows,
          row.getD 0 (SqlValue.str "") = SqlValue.int DEFAULT_CUSTOMER_ID := by
  refine ⟨rfl, ?_⟩
  intro offers fs h f hf row hrow
  rw [show createOffers allOk offers = createOffers allOk offers DEFAULT_CUSTOMER_ID from rfl,
    createOffers_allOk] at h
  injection h with h'
  subst h'
  rw [List.mem_map] at hf
  obtain ⟨batch, hb, rfl⟩ := hf
  have hrow' : row ∈ batch.map (offerRowValues DEFAULT_CUSTOMER_ID) := hrow
  rw [List.mem_map] at hrow'
  obtain ⟨o, ho, rfl⟩ := hrow'
  rfl

/-- Witness for C9 on a concrete single-offer run without a customer id. -/
theorem createOffers_default_customer_id_witness :
    (offerRowValues DEFAULT_CUSTOMER_ID sampleOffer).getD 0 (SqlValue.str "")
      = SqlValue.int DEFAULT_CUSTOMER_ID :=
  createOffers_default_customer_id.2 [sampleOffer]
    [⟨[offerRowValues DEFAULT_CUSTOMER_ID sampleOffer], [segmentRowValues sampleSegment]⟩]
    rfl ⟨[offerRowValues DEFAULT_CUSTOMER_ID sampleOffer], [segmentRowValues sampleSegment]⟩
    (by simp) (offerRowValues DEFAULT_CUSTOMER_ID sampleOffer) (by simp)

/-- C10: a segment produced by `randomSegment` with kind `olc_8` has a value of
exactly 8 characters and with kind `olc_6` exactly 6, the encoded code being
cut by `substring(0, olcLen)`, so the value never contains the '+' separator
(nor anything past the cut), as long as the geocoder emits codes of at least
the requested length whose first eight characters are code digits. -/
theorem randomSegment_olc_truncation (env : GenEnv)
    (hlen : ∀ lat lon n, n ≤ 8 → n ≤ (env.encode lat lon n).length)
    (hsep : ∀ lat lon n, n ≤ 8 → ∀ c ∈ (env.encode lat lon n).data.take 8, ¬(c = '+'))
    (city : CityConfig) (i : Nat) :
    ((randomSegment env city i).1.kind = SegmentKind.olc_8 →
        (randomSegment env city i).1.value.length = 8
        ∧ ∀ c ∈ (randomSegment env city i).1.value.data, ¬(c = '+'))
    ∧ ((randomSegment env city i).1.kind = SegmentKind.olc_6 →
        (randomSegment env city i).1.value.length = 6
        ∧ ∀ c ∈ (randomSegment env city i).1.value.data, ¬(c = '+')) := by
  rcases hk : (randomSegmentKind env i).1 with _ | _ | _ | _
  · simp only [randomSegment, hk]
    constructor
    · intro _
      constructor
      · show (substring0 (env.encode _ _ 8) 8).length = 8
        rw [substring0, String.length, List.length_take]
        exact Nat.min_eq_left (hlen _ _ 8 le_rfl)
      · intro c hc
        exact hsep _ _ 8 le_rfl c (mem_take8 le_rfl hc)
    · intro hcontra
      exact absurd hcontra (by decide)
  · have h6 : (if SegmentKind.olc_6 = SegmentKind.olc_8 then (8 : Nat) else 6) = 6 := by
      decide
    simp only [randomSegment, hk, h6]
    constructor
    · intro hcontra
      exact absurd hcontra (by decide)
    · intro _
      constructor
      · show (substring0 (env.encode _ _ 6) 6).length = 6
        rw [substring0, String.length, List.length_take]
        exact Nat.min_eq_left (hlen _ _ 6 (by omega))
      · intro c hc
        exact hsep _ _ 6 (by omega) c (mem_take8 (by omega) hc)
  · simp only [randomSegment, hk]
    exact ⟨fun hcontra => absurd hcontra (by decide),
      fun hcontra => absurd hcontra (by decide)⟩
  · simp only [randomSegment, hk]
    exact ⟨fun hcontra => absurd hcontra (by decide),
      fun hcontra => absurd hcontra (by decide)⟩

/-- Witness for C10: with the constant-0 stream the drawn kind is `olc_8` and
the value is the 8-character truncation. -/
theorem randomSegment_olc_truncation_witness :
    (randomSegment zeroEnv DEFAULT_CITY 0).1.value.length = 8 :=
  ((randomSegment_olc_truncation zeroEnv
      (fun lat lon n hn => by
        show n ≤ ("22222222+" : String).length
        have h9 : ("22222222+" : String).length = 9 := rfl
        omega)
      (fun lat lon n hn c hc => by
        have hc' : c ∈ ("22222222+" : String).data.take 8 := hc
        have : ("22222222+" : String).data.take 8
            = ['2', '2', '2', '2', '2', '2', '2', '2'] := rfl
        rw [this] at hc'
        intro hplus
        subst hplus
        simp at hc')
      DEFAULT_CITY 0).1
    (by
      have hkind : (randomSegmentKind zeroEnv 0).1 = SegmentKind.olc_8 := by
        simp [randomSegmentKind, randomChoice, mathRandom, zeroEnv, SegmentKinds]
      simp [randomSegment, hkind])).1

end Martech
